import Mathlib

/-!
Shallow embedding of the XDrive drive controller from src/src/main.py
(an omnidirectional X-drive robot program), together with theorems about
its kinematics and mode dispatch.

Axis samples, headings and motor powers are modelled as real numbers.
Motor commands issued to the hardware abstraction are modelled as an
explicit list of commands per tick.
-/

namespace OSWALD

/-- Motor spin direction, the vex API constants FORWARD and REVERSE. -/
inductive Dir where
  | forward
  | reverse
deriving DecidableEq

/-- One command issued to the motor abstraction during a tick: either
spinning one motor of the group (identified by its index in the group)
in a direction at a speed in percent units, or stopping one motor with
the BRAKE mode. -/
inductive Cmd where
  | spin (motorIndex : ℕ) (d : Dir) (speed : ℝ)
  | stop (motorIndex : ℕ)

/-- XMotorGroup.spin: spin all four motors of the group. -/
def groupSpin (d : Dir) (speed : ℝ) : List Cmd :=
  [.spin 0 d speed, .spin 1 d speed, .spin 2 d speed, .spin 3 d speed]

/-- XMotorGroup.stop: stop all four motors of the group. -/
def groupStop : List Cmd :=
  [.stop 0, .stop 1, .stop 2, .stop 3]

/-- XMotorGroup.spin_some: spin the motors with the given indices. -/
def spin_some (d : Dir) (speed : ℝ) (motors : List ℕ) : List Cmd :=
  motors.map fun i => .spin i d speed

/-- XDrive.move_up: spin the whole group forward. -/
def move_up (speed : ℝ) : List Cmd := groupSpin .forward speed

/-- XDrive.move_down: spin the whole group in reverse. -/
def move_down (speed : ℝ) : List Cmd := groupSpin .reverse speed

/-- XDrive.move_left: motors 1 and 2 forward, motors 0 and 3 in reverse. -/
def move_left (speed : ℝ) : List Cmd :=
  spin_some .forward speed [1, 2] ++ spin_some .reverse speed [0, 3]

/-- XDrive.move_right: motors 1 and 2 in reverse, motors 0 and 3 forward. -/
def move_right (speed : ℝ) : List Cmd :=
  spin_some .reverse speed [1, 2] ++ spin_some .forward speed [0, 3]

/-- XDrive.turn_right: motors 0 and 1 forward, motors 2 and 3 in reverse. -/
def turn_right (speed : ℝ) : List Cmd :=
  spin_some .forward speed [0, 1] ++ spin_some .reverse speed [2, 3]

/-- XDrive.turn_left: motors 0 and 1 in reverse, motors 2 and 3 forward. -/
def turn_left (speed : ℝ) : List Cmd :=
  spin_some .reverse speed [0, 1] ++ spin_some .forward speed [2, 3]

/-- XDrive.stop: stop all motors of the group. -/
def stop : List Cmd := groupStop

namespace XMode

/-- XMode.SINGLE_MOVE. -/
def SINGLE_MOVE : ℤ := 0

/-- XMode.FLUID. -/
def FLUID : ℤ := 1

/-- XMode.FIELD_CENTRIC. -/
def FIELD_CENTRIC : ℤ := 2

end XMode

/-- XDrive.move_single: legacy single-move code, performing at most one
movement action per tick via a chain of elif branches. -/
noncomputable def move_single (left_y left_x right_x : ℝ) : List Cmd :=
  if left_y > 10 then move_up left_y
  else if left_y < -10 then move_down |left_y|
  else if left_x > 10 then move_right left_x
  else if left_x < -10 then move_left |left_x|
  else if right_x > 10 then turn_right right_x
  else if right_x < -10 then turn_left |right_x|
  else stop

/-- The left_dead flag computed inside XDrive.move_fluid: both the
left-stick axes are strictly inside (-10, 10). -/
def left_dead (left_y left_x : ℝ) : Prop :=
  left_y < 10 ∧ left_y > -10 ∧ left_x < 10 ∧ left_x > -10

/-- The right_dead flag computed inside XDrive.move_fluid: the right-stick
x axis is strictly inside (-10, 10). -/
def right_dead (right_x : ℝ) : Prop :=
  right_x < 10 ∧ right_x > -10

noncomputable instance (y x : ℝ) : Decidable (left_dead y x) := by
  unfold left_dead; infer_instance

noncomputable instance (x : ℝ) : Decidable (right_dead x) := by
  unfold right_dead; infer_instance

/-- The four accumulator values mr1, mr2, mr3, mr4 of XDrive.move_fluid:
starting from zero, the rotate axis is added with signs (+, +, -, -) when
the right stick is not dead, and then forward is added to all four and
strafe with signs (+, -, -, +) when the left stick is not dead. -/
noncomputable def fluidSums (left_y left_x right_x : ℝ) : ℝ × ℝ × ℝ × ℝ :=
  let r : ℝ × ℝ × ℝ × ℝ := (0, 0, 0, 0)
  let r := if right_dead right_x then r else
    (r.1 + right_x, r.2.1 + right_x, r.2.2.1 - right_x, r.2.2.2 - right_x)
  let r := if left_dead left_y left_x then r else
    (r.1 + left_y + left_x, r.2.1 + left_y - left_x,
     r.2.2.1 + left_y - left_x, r.2.2.2 + left_y + left_x)
  r

/-- The heading-rotated x component computed in XDrive.get_centric_power,
with the heading converted from degrees to radians first. -/
noncomputable def centric_rotation_x (heading_deg x y : ℝ) : ℝ :=
  x * Real.cos (-(heading_deg * (Real.pi / 180))) -
    y * Real.sin (-(heading_deg * (Real.pi / 180)))

/-- The heading-rotated y component computed in XDrive.get_centric_power. -/
noncomputable def centric_rotation_y (heading_deg x y : ℝ) : ℝ :=
  x * Real.sin (-(heading_deg * (Real.pi / 180))) +
    y * Real.cos (-(heading_deg * (Real.pi / 180)))

/-- The normalization denominator computed in XDrive.get_centric_power. -/
noncomputable def centric_denominator (heading_deg x y rx : ℝ) : ℝ :=
  max (|centric_rotation_y heading_deg x y| + |centric_rotation_x heading_deg x y| + |rx|) 1

/-- XDrive.get_centric_power: field-centric wheel powers. The heading is
read from the inertial sensor in degrees; here it is an explicit first
argument. The remaining arguments keep the source order (x, y, rx). -/
noncomputable def get_centric_power (heading_deg x y rx : ℝ) : ℝ × ℝ × ℝ × ℝ :=
  let rotation_x := centric_rotation_x heading_deg x y
  let rotation_y := centric_rotation_y heading_deg x y
  let denominator := centric_denominator heading_deg x y rx
  ((rotation_y + rotation_x + rx) / denominator,
   (rotation_y - rotation_x + rx) / denominator,
   (rotation_y - rotation_x - rx) / denominator,
   (rotation_y + rotation_x - rx) / denominator)

/-- XDrive.move_fluid: additive mixing. If all four accumulators are zero
the drive stops; otherwise, when the current mode is FIELD_CENTRIC the
powers are overridden by get_centric_power, and each motor is spun
FORWARD at its power. -/
noncomputable def move_fluid (mode : ℤ) (heading left_y left_x right_x : ℝ) : List Cmd :=
  let mr := fluidSums left_y left_x right_x
  if mr.1 = 0 ∧ mr.2.1 = 0 ∧ mr.2.2.1 = 0 ∧ mr.2.2.2 = 0 then
    stop
  else
    let p := if mode = XMode.FIELD_CENTRIC then
        get_centric_power heading left_x left_y right_x
      else mr
    [.spin 0 .forward p.1, .spin 1 .forward p.2.1,
     .spin 2 .forward p.2.2.1, .spin 3 .forward p.2.2.2]

/-- XDrive.move_centric: spin each motor FORWARD at the field-centric
power for the current axis sample. -/
noncomputable def move_centric (heading left_y left_x right_x : ℝ) : List Cmd :=
  let power := get_centric_power heading left_x left_y right_x
  [.spin 0 .forward power.1, .spin 1 .forward power.2.1,
   .spin 2 .forward power.2.2.1, .spin 3 .forward power.2.2.2]

/-- The mutable state of an XDrive object that the drive logic touches:
only the mode field. -/
structure XDriveState where
  mode : ℤ

/-- XDrive.set_mode: replace the mode field; no validation is performed. -/
def set_mode (_s : XDriveState) (mode : ℤ) : XDriveState := ⟨mode⟩

/-- XDrive.process_input: dispatch the tick's axis sample to the mixing
strategy selected by the current mode. The method never writes any state,
so the state is returned unchanged alongside the issued commands; a mode
matching none of the three branches issues no command. -/
noncomputable def process_input (s : XDriveState) (heading left_y left_x right_x : ℝ) :
    XDriveState × List Cmd :=
  (s,
   if s.mode = XMode.FLUID then move_fluid s.mode heading left_y left_x right_x
   else if s.mode = XMode.FIELD_CENTRIC then move_centric heading left_y left_x right_x
   else if s.mode = XMode.SINGLE_MOVE then move_single left_y left_x right_x
   else [])

lemma one_le_centric_denom (heading_deg x y rx : ℝ) :
    1 ≤ centric_denominator heading_deg x y rx := by
  unfold centric_denominator
  exact le_max_right _ _

lemma div_mem_Icc_of_abs_le (num d : ℝ) (hd : 1 ≤ d) (h : |num| ≤ d) :
    -1 ≤ num / d ∧ num / d ≤ 1 := by
  have hd0 : (0:ℝ) < d := lt_of_lt_of_le one_pos hd
  have habs : |num / d| ≤ 1 := by
    rw [abs_div, abs_of_pos hd0]
    exact (div_le_one hd0).mpr h
  exact abs_le.mp habs

/-- C1: for every real-valued axis sample (strafe x, forward y, rotate rx)
and every heading, each of the four wheel powers returned by the
FIELD_CENTRIC mixing function get_centric_power lies within [-1, 1],
because each numerator's absolute value is bounded by the normalization
denominator. -/
theorem centric_power_bounded (heading_deg x y rx : ℝ) :
    (-1 ≤ (get_centric_power heading_deg x y rx).1 ∧
      (get_centric_power heading_deg x y rx).1 ≤ 1) ∧
    (-1 ≤ (get_centric_power heading_deg x y rx).2.1 ∧
      (get_centric_power heading_deg x y rx).2.1 ≤ 1) ∧
    (-1 ≤ (get_centric_power heading_deg x y rx).2.2.1 ∧
      (get_centric_power heading_deg x y rx).2.2.1 ≤ 1) ∧
    (-1 ≤ (get_centric_power heading_deg x y rx).2.2.2 ∧
      (get_centric_power heading_deg x y rx).2.2.2 ≤ 1) := by
  simp only [get_centric_power, centric_denominator]
  set ry := centric_rotation_y heading_deg x y
  set rxr := centric_rotation_x heading_deg x y
  have hd : (1:ℝ) ≤ max (|ry| + |rxr| + |rx|) 1 := le_max_right _ _
  have hb : |ry| + |rxr| + |rx| ≤ max (|ry| + |rxr| + |rx|) 1 := le_max_left _ _
  have h1 : |ry + rxr + rx| ≤ |ry| + |rxr| + |rx| := abs_add_three _ _ _
  have h2 : |ry - rxr + rx| ≤ |ry| + |rxr| + |rx| := by
    have h := abs_add_three ry (-rxr) rx
    simpa [sub_eq_add_neg] using h
  have h3 : |ry - rxr - rx| ≤ |ry| + |rxr| + |rx| := by
    have h := abs_add_three ry (-rxr) (-rx)
    simpa [sub_eq_add_neg] using h
  have h4 : |ry + rxr - rx| ≤ |ry| + |rxr| + |rx| := by
    have h := abs_add_three ry rxr (-rx)
    simpa [sub_eq_add_neg] using h
  exact ⟨div_mem_Icc_of_abs_le _ _ hd (h1.trans hb),
         div_mem_Icc_of_abs_le _ _ hd (h2.trans hb),
         div_mem_Icc_of_abs_le _ _ hd (h3.trans hb),
         div_mem_Icc_of_abs_le _ _ hd (h4.trans hb)⟩

/-- C8: the normalization denominator in field-centric mixing is floored at
1 via max, so it is at least 1 and never zero, for every input and
heading. -/
theorem centric_denominator_floored (heading_deg x y rx : ℝ) :
    1 ≤ centric_denominator heading_deg x y rx ∧
    centric_denominator heading_deg x y rx ≠ 0 := by
  have h := one_le_centric_denom heading_deg x y rx
  exact ⟨h, (lt_of_lt_of_le one_pos h).ne'⟩

lemma fluidSums_all_dead (ly lx rx : ℝ) (hl : left_dead ly lx) (hr : right_dead rx) :
    fluidSums ly lx rx = (0, 0, 0, 0) := by
  simp only [fluidSums]
  rw [if_pos hl, if_pos hr]

/-- C2: when all three axis components have magnitude strictly below the
dead-zone threshold 10, the FLUID strategy and the SINGLE_MOVE strategy
both issue the stop command to all four motors, and the stop command
contains no spin of any motor. -/
theorem dead_zone_stop (heading left_y left_x right_x : ℝ)
    (hy : |left_y| < 10) (hx : |left_x| < 10) (hr : |right_x| < 10) :
    move_fluid XMode.FLUID heading left_y left_x right_x = stop ∧
    move_single left_y left_x right_x = stop ∧
    (∀ i d s, Cmd.spin i d s ∉ stop) := by
  obtain ⟨hy1, hy2⟩ := abs_lt.mp hy
  obtain ⟨hx1, hx2⟩ := abs_lt.mp hx
  obtain ⟨hr1, hr2⟩ := abs_lt.mp hr
  have hld : left_dead left_y left_x := ⟨hy2, hy1, hx2, hx1⟩
  have hrd : right_dead right_x := ⟨hr2, hr1⟩
  have hsums : fluidSums left_y left_x right_x = (0, 0, 0, 0) :=
    fluidSums_all_dead _ _ _ hld hrd
  refine ⟨?_, ?_, ?_⟩
  · simp only [move_fluid, hsums]
    norm_num
  · simp only [move_single]
    rw [if_neg (by linarith), if_neg (by linarith), if_neg (by linarith),
        if_neg (by linarith), if_neg (by linarith), if_neg (by linarith)]
  · intro i d s
    simp [stop, groupStop]

/-- Witness for dead_zone_stop at the sample (5, -3, 9) with heading 0. -/
theorem dead_zone_stop_witness :
    |(5:ℝ)| < 10 ∧ |(-3:ℝ)| < 10 ∧ |(9:ℝ)| < 10 ∧
    (move_fluid XMode.FLUID 0 5 (-3) 9 = stop ∧
     move_single 5 (-3) 9 = stop ∧
     (∀ i d s, Cmd.spin i d s ∉ stop)) :=
  ⟨by rw [abs_lt]; norm_num, by rw [abs_lt]; norm_num, by rw [abs_lt]; norm_num,
   dead_zone_stop 0 5 (-3) 9 (by rw [abs_lt]; norm_num)
     (by rw [abs_lt]; norm_num) (by rw [abs_lt]; norm_num)⟩

/-- The SINGLE_MOVE behavior as the claim states it: six directions tried
in priority order forward, backward, strafe-right, strafe-left,
rotate-right, rotate-left, each triggering when its axis exceeds the
dead-zone threshold 10 in the corresponding sign, with command magnitude
the absolute value of the triggering axis; all motors stop when none
triggers. -/
noncomputable def single_spec (left_y left_x right_x : ℝ) : List Cmd :=
  if left_y > 10 then move_up |left_y|
  else if left_y < -10 then move_down |left_y|
  else if left_x > 10 then move_right |left_x|
  else if left_x < -10 then move_left |left_x|
  else if right_x > 10 then turn_right |right_x|
  else if right_x < -10 then turn_left |right_x|
  else stop

/-- C3: the SINGLE_MOVE strategy coincides everywhere with the
priority-ordered single-direction dispatch whose magnitudes are the
absolute value of the triggering axis, and at forward=50, strafe=0,
rotate=0 it moves forward at magnitude 50. -/
theorem move_single_priority :
    (∀ left_y left_x right_x : ℝ,
      move_single left_y left_x right_x = single_spec left_y left_x right_x) ∧
    move_single 50 0 0 = move_up 50 := by
  constructor
  · intro ly lx rx
    unfold move_single single_spec
    split_ifs <;> first
      | rfl
      | rw [abs_of_pos (by linarith)]
  · unfold move_single
    rw [if_pos (by norm_num : (50:ℝ) > 10)]

/-- The FLUID mixing behavior as the claim states it: each wheel's raw
power is the signed sum of the dead-zone-gated axis contributions, rotate
entering with signs (+, +, -, -), forward with (+, +, +, +) and strafe
with (+, -, -, +) over the wheel order FL, BL, FR, BR; if all four sums
are zero the stop command is emitted, otherwise each wheel is spun
FORWARD at its raw unnormalized sum. -/
noncomputable def fluid_spec (left_y left_x right_x : ℝ) : List Cmd :=
  let rot := if right_dead right_x then (0:ℝ) else right_x
  let fwd := if left_dead left_y left_x then (0:ℝ) else left_y
  let str := if left_dead left_y left_x then (0:ℝ) else left_x
  let w1 := rot + fwd + str
  let w2 := rot + fwd - str
  let w3 := -rot + fwd - str
  let w4 := -rot + fwd + str
  if w1 = 0 ∧ w2 = 0 ∧ w3 = 0 ∧ w4 = 0 then stop
  else
    [.spin 0 .forward w1, .spin 1 .forward w2,
     .spin 2 .forward w3, .spin 3 .forward w4]

lemma fluidSums_eq_gated (ly lx rx : ℝ) :
    fluidSums ly lx rx =
      ((if right_dead rx then 0 else rx) + (if left_dead ly lx then 0 else ly) +
        (if left_dead ly lx then 0 else lx),
       (if right_dead rx then 0 else rx) + (if left_dead ly lx then 0 else ly) -
        (if left_dead ly lx then 0 else lx),
       -(if right_dead rx then 0 else rx) + (if left_dead ly lx then 0 else ly) -
        (if left_dead ly lx then 0 else lx),
       -(if right_dead rx then 0 else rx) + (if left_dead ly lx then 0 else ly) +
        (if left_dead ly lx then 0 else lx)) := by
  by_cases hr : right_dead rx <;> by_cases hl : left_dead ly lx <;>
    simp [fluidSums, hr, hl, Prod.ext_iff]

/-- C4: in FLUID mode, move_fluid emits exactly the sign-table mixing the
claim describes, and in particular forward=0, strafe=0, rotate=40 yields
wheel powers (FL=40, BL=40, FR=-40, BR=-40). -/
theorem move_fluid_matches_table :
    (∀ heading left_y left_x right_x : ℝ,
      move_fluid XMode.FLUID heading left_y left_x right_x =
        fluid_spec left_y left_x right_x) ∧
    move_fluid XMode.FLUID 0 0 0 40 =
      [Cmd.spin 0 .forward 40, Cmd.spin 1 .forward 40,
       Cmd.spin 2 .forward (-40), Cmd.spin 3 .forward (-40)] := by
  have hm : (XMode.FLUID = XMode.FIELD_CENTRIC) = False := by decide
  constructor
  · intro heading ly lx rx
    have hs := fluidSums_eq_gated ly lx rx
    simp only [move_fluid, fluid_spec, hs, hm, if_false]
  · have h40 : ¬ right_dead (40:ℝ) := by norm_num [right_dead]
    have h00 : left_dead (0:ℝ) 0 := by norm_num [left_dead]
    simp only [move_fluid, fluidSums, h40, h00, hm, if_false, if_true, ite_true, ite_false]
    norm_num

/-- The FIELD_CENTRIC mixing as the claim states it: the (strafe, forward)
vector is rotated by the negative of the heading angle theta in radians
(rx = strafe * cos(-theta) - forward * sin(-theta),
ry = strafe * sin(-theta) + forward * cos(-theta)) and the four wheel
powers are (ry+rx+rot, ry-rx+rot, ry-rx-rot, ry+rx-rot), each divided by
max(|ry| + |rx| + |rot|, 1). -/
noncomputable def spec_centric (theta strafe fwd rot : ℝ) : ℝ × ℝ × ℝ × ℝ :=
  let rx := strafe * Real.cos (-theta) - fwd * Real.sin (-theta)
  let ry := strafe * Real.sin (-theta) + fwd * Real.cos (-theta)
  let denom := max (|ry| + |rx| + |rot|) 1
  ((ry + rx + rot) / denom, (ry - rx + rot) / denom,
   (ry - rx - rot) / denom, (ry + rx - rot) / denom)

/-- C5: get_centric_power computes exactly the closed-form formula of the
claim, with the heading converted from degrees to radians; in particular
at heading 90 degrees with forward=100, strafe=0, rotate=0 the rotated
vector lands on the lateral axis, giving wheel powers (1, -1, -1, 1). -/
theorem centric_power_closed_form :
    (∀ heading_deg x y rx : ℝ,
      get_centric_power heading_deg x y rx =
        spec_centric (heading_deg * (Real.pi / 180)) x y rx) ∧
    get_centric_power 90 0 100 0 = (1, -1, -1, 1) := by
  constructor
  · intro h x y rx
    rfl
  · have hrad : (90:ℝ) * (Real.pi / 180) = Real.pi / 2 := by ring
    have hx : centric_rotation_x 90 0 100 = 100 := by
      unfold centric_rotation_x
      rw [hrad]
      simp [Real.cos_neg, Real.sin_neg, Real.cos_pi_div_two, Real.sin_pi_div_two]
    have hy : centric_rotation_y 90 0 100 = 0 := by
      unfold centric_rotation_y
      rw [hrad]
      simp [Real.cos_neg, Real.sin_neg, Real.cos_pi_div_two, Real.sin_pi_div_two]
    have hd : centric_denominator 90 0 100 0 = 100 := by
      unfold centric_denominator
      rw [hy, hx]
      norm_num
    simp only [get_centric_power, hx, hy, hd]
    norm_num

/-- The ungated FLUID sign-table combination over wheel order FL, BL, FR,
BR: rotate enters with signs (+, +, -, -), forward with (+, +, +, +) and
strafe with (+, -, -, +), with no dead-zone gating applied. -/
def fluid_table_sums (left_y left_x right_x : ℝ) : ℝ × ℝ × ℝ × ℝ :=
  (right_x + left_y + left_x, right_x + left_y - left_x,
   -right_x + left_y - left_x, -right_x + left_y + left_x)

lemma centric_rotation_x_zero (x y : ℝ) : centric_rotation_x 0 x y = x := by
  unfold centric_rotation_x
  simp

lemma centric_rotation_y_zero (x y : ℝ) : centric_rotation_y 0 x y = y := by
  unfold centric_rotation_y
  simp

/-- C6 counterexample: at heading 0 with forward=5, strafe=0, rotate=0
(inside the dead zone) the FIELD_CENTRIC wheel powers are (1, 1, 1, 1)
while FLUID's raw dead-zone-gated wheel sums are all zero, so the
FIELD_CENTRIC output differs from the normalized FLUID mixing result. -/
theorem centric_vs_fluid_heading_zero_cex :
    get_centric_power 0 0 5 0 = (1, 1, 1, 1) ∧
    fluidSums 5 0 0 = (0, 0, 0, 0) ∧
    get_centric_power 0 0 5 0 ≠
      ((fluidSums 5 0 0).1 / centric_denominator 0 0 5 0,
       (fluidSums 5 0 0).2.1 / centric_denominator 0 0 5 0,
       (fluidSums 5 0 0).2.2.1 / centric_denominator 0 0 5 0,
       (fluidSums 5 0 0).2.2.2 / centric_denominator 0 0 5 0) := by
  have hx := centric_rotation_x_zero 0 5
  have hy := centric_rotation_y_zero 0 5
  have hd : centric_denominator 0 0 5 0 = 5 := by
    unfold centric_denominator
    rw [hy, hx]
    norm_num
  have h1 : get_centric_power 0 0 5 0 = (1, 1, 1, 1) := by
    simp only [get_centric_power, hx, hy, hd]
    norm_num
  have h2 : fluidSums 5 0 0 = (0, 0, 0, 0) :=
    fluidSums_all_dead 5 0 0 (by norm_num [left_dead]) (by norm_num [right_dead])
  refine ⟨h1, h2, ?_⟩
  rw [h1, h2, hd]
  simp [Prod.ext_iff]

/-- C6 amended: at heading 0 the four FIELD_CENTRIC wheel powers equal the
ungated FLUID sign-table sums each divided by the field-centric
normalization denominator, for every forward/strafe/rotate input; the
dead-zone gating inside move_fluid makes the original claim fail for
samples inside the dead zone. -/
theorem centric_heading_zero_eq_normalized_table (left_y left_x right_x : ℝ) :
    get_centric_power 0 left_x left_y right_x =
      ((fluid_table_sums left_y left_x right_x).1 /
        centric_denominator 0 left_x left_y right_x,
       (fluid_table_sums left_y left_x right_x).2.1 /
        centric_denominator 0 left_x left_y right_x,
       (fluid_table_sums left_y left_x right_x).2.2.1 /
        centric_denominator 0 left_x left_y right_x,
       (fluid_table_sums left_y left_x right_x).2.2.2 /
        centric_denominator 0 left_x left_y right_x) := by
  have hx := centric_rotation_x_zero left_x left_y
  have hy := centric_rotation_y_zero left_x left_y
  simp only [get_centric_power, fluid_table_sums, hx, hy, Prod.mk.injEq]
  refine ⟨by ring, by ring, by ring, by ring⟩

/-- C7 counterexample: FLUID mixing is not linear across the dead-zone
boundary: at (forward, strafe, rotate) = (6, 0, 0) the raw wheel sums
are all zero, while at the doubled sample (12, 0, 0) they are all 12. -/
theorem fluid_linearity_cex :
    fluidSums (2 * 6) (2 * 0) (2 * 0) ≠
      (2 * (fluidSums 6 0 0).1, 2 * (fluidSums 6 0 0).2.1,
       2 * (fluidSums 6 0 0).2.2.1, 2 * (fluidSums 6 0 0).2.2.2) := by
  have h6 : fluidSums 6 0 0 = (0, 0, 0, 0) :=
    fluidSums_all_dead 6 0 0 (by norm_num [left_dead]) (by norm_num [right_dead])
  have hl : ¬ left_dead (12:ℝ) 0 := by norm_num [left_dead]
  have hr : right_dead (0:ℝ) := by norm_num [right_dead]
  have h12 : fluidSums (2 * 6) (2 * 0) (2 * 0) = (12, 12, 12, 12) := by
    norm_num
    simp [fluidSums, hl, hr]
  rw [h12, h6]
  simp [Prod.ext_iff]

/-- C7 amended: doubling every input axis doubles every raw wheel sum of
move_fluid, provided each dead-zone flag classifies the doubled sample
the same way as the original sample; without that proviso the gating
breaks linearity across the dead-zone boundary. -/
theorem fluid_linearity_gated (left_y left_x right_x : ℝ)
    (hl : left_dead (2 * left_y) (2 * left_x) ↔ left_dead left_y left_x)
    (hr : right_dead (2 * right_x) ↔ right_dead right_x) :
    fluidSums (2 * left_y) (2 * left_x) (2 * right_x) =
      (2 * (fluidSums left_y left_x right_x).1,
       2 * (fluidSums left_y left_x right_x).2.1,
       2 * (fluidSums left_y left_x right_x).2.2.1,
       2 * (fluidSums left_y left_x right_x).2.2.2) := by
  rw [fluidSums_eq_gated, fluidSums_eq_gated]
  simp only [hl, hr, Prod.mk.injEq]
  by_cases h1 : right_dead right_x <;> by_cases h2 : left_dead left_y left_x <;>
    simp only [h1, h2, if_true, if_false, ite_true, ite_false] <;>
    refine ⟨by ring, by ring, by ring, by ring⟩

/-- Witness for fluid_linearity_gated at the sample (20, 0, 0), whose
dead-zone classification is preserved by doubling. -/
theorem fluid_linearity_gated_witness :
    (left_dead (2 * 20) (2 * 0) ↔ left_dead 20 0) ∧
    (right_dead (2 * 0) ↔ right_dead 0) ∧
    fluidSums (2 * 20) (2 * 0) (2 * 0) =
      (2 * (fluidSums 20 0 0).1, 2 * (fluidSums 20 0 0).2.1,
       2 * (fluidSums 20 0 0).2.2.1, 2 * (fluidSums 20 0 0).2.2.2) :=
  ⟨by norm_num [left_dead], by norm_num [right_dead],
   fluid_linearity_gated 20 0 0 (by norm_num [left_dead]) (by norm_num [right_dead])⟩

/-- C9: under process_input dispatch with mode FLUID, the emitted state
and motor commands are identical for any two heading values: the heading
sensor has no influence, i.e. the field-centric override branch inside
move_fluid is never taken in FLUID mode. -/
theorem fluid_heading_irrelevant (heading1 heading2 left_y left_x right_x : ℝ) :
    process_input ⟨XMode.FLUID⟩ heading1 left_y left_x right_x =
      process_input ⟨XMode.FLUID⟩ heading2 left_y left_x right_x := by
  have hm : ¬ (XMode.FLUID = XMode.FIELD_CENTRIC) := by decide
  simp [process_input, move_fluid, hm]

/-- C10: set_mode accepts any integer mode value without validation, and
when the resulting mode lies outside the enumeration 0, 1, 2,
process_input issues no motor command at all and leaves the state
unchanged: a silent no-op. -/
theorem invalid_mode_silent_noop (s : XDriveState) (m : ℤ)
    (heading left_y left_x right_x : ℝ)
    (h0 : m ≠ XMode.SINGLE_MOVE) (h1 : m ≠ XMode.FLUID)
    (h2 : m ≠ XMode.FIELD_CENTRIC) :
    set_mode s m = ⟨m⟩ ∧
    process_input (set_mode s m) heading left_y left_x right_x = (⟨m⟩, []) := by
  refine ⟨rfl, ?_⟩
  simp only [process_input, set_mode]
  rw [if_neg h1, if_neg h2, if_neg h0]

/-- Witness for invalid_mode_silent_noop at the out-of-range mode 5. -/
theorem invalid_mode_silent_noop_witness :
    (5:ℤ) ≠ XMode.SINGLE_MOVE ∧ (5:ℤ) ≠ XMode.FLUID ∧
    (5:ℤ) ≠ XMode.FIELD_CENTRIC ∧
    (set_mode ⟨XMode.FLUID⟩ 5 = ⟨5⟩ ∧
     process_input (set_mode ⟨XMode.FLUID⟩ 5) 0 50 0 0 = (⟨5⟩, [])) :=
  ⟨by decide, by decide, by decide,
   invalid_mode_silent_noop ⟨XMode.FLUID⟩ 5 0 50 0 0
     (by decide) (by decide) (by decide)⟩

end OSWALD
